import Mathlib

/-!
Shallow embedding of the Stratum V2 connection-setup and foreign-representation
code of this repository (crate `common_messages_sv2`, file
`src/protocols/v2/subprotocols/common-messages/src/setup_connection.rs`, and the
template-distribution foreign representation in
`src/protocols/v2/subprotocols/template-distribution/src/request_transaction_data.rs`),
together with theorems settling the specified properties.

Machine integers are embedded as `Nat`; `u32` operations that can wrap
(`reverse_bits`, `<<`) are followed by explicit reduction modulo `2 ^ 32`
exactly where the Rust semantics truncates.
-/

/-- Reversal of the low `k` bits of `m` (least-significant bit of `m` becomes the
most-significant of the `k`-bit result).  `revBits 32` is the embedding of
Rust's `u32::reverse_bits`. -/
def revBits : Nat → Nat → Nat
  | 0, _ => 0
  | k + 1, m => m % 2 * 2 ^ k + revBits k (m / 2)

/-- Embedding of `u32::reverse_bits` (the standard-library primitive used by
`setup_connection.rs`): reverse the order of the 32 bits of the word. -/
def reverse_bits (n : Nat) : Nat := revBits 32 n

/-- The three Stratum V2 subprotocols (`Protocol` enum in `setup_connection.rs`). -/
inductive Protocol
  | MiningProtocol
  | JobDeclarationProtocol
  | TemplateDistributionProtocol
deriving DecidableEq, Repr

/-- Modelled from the spec: the numeric discriminant for the mining protocol is
the external constant `SV2_MINING_PROTOCOL_DISCRIMINANT` of the `const_sv2`
crate, which is not under `src/`; the spec (section 6) says only that an external
shared constant table assigns one numeric code per protocol.  The standard
assignment `0` is used. -/
def SV2_MINING_PROTOCOL_DISCRIMINANT : Nat := 0

/-- Modelled from the spec: external discriminant for the job declaration
protocol (`const_sv2`, not under `src/`); assigned `1`. -/
def SV2_JOB_DECLARATION_PROTOCOL_DISCRIMINANT : Nat := 1

/-- Modelled from the spec: external discriminant for the template distribution
protocol (`const_sv2`, not under `src/`); assigned `2`. -/
def SV2_TEMPLATE_DISTR_PROTOCOL_DISCRIMINANT : Nat := 2

/-- Embedding of `impl TryFrom<u8> for Protocol`: match the byte against the
three discriminant constants in declaration order, otherwise fail. -/
def Protocol.try_from (value : Nat) : Option Protocol :=
  if value = SV2_MINING_PROTOCOL_DISCRIMINANT then some Protocol.MiningProtocol
  else if value = SV2_JOB_DECLARATION_PROTOCOL_DISCRIMINANT then some Protocol.JobDeclarationProtocol
  else if value = SV2_TEMPLATE_DISTR_PROTOCOL_DISCRIMINANT then some Protocol.TemplateDistributionProtocol
  else none

/-- The `binary_sv2::Error` variants reachable from the embedded code.
`Str0255TooLong` models the conversion error of `Str0255::try_from` on an
over-long byte slice (the conversion lives in `binary_sv2`, outside `src/`). -/
inductive BinaryError
  | NoDecodableFieldPassed
  | ValueIsNotAValidProtocol (v : Nat)
  | Str0255TooLong (len : Nat)
deriving DecidableEq, Repr

/-- Embedding of `Decodable::from_decoded_fields` for `Protocol`: pop the last
decoded field (a byte), then convert with `Protocol::try_from`, mapping the
failure to `Error::ValueIsNotAValidProtocol(val)`. -/
def Protocol.from_decoded_fields (v : List Nat) : Except BinaryError Protocol :=
  match v.getLast? with
  | none => Except.error BinaryError.NoDecodableFieldPassed
  | some val =>
    match Protocol.try_from val with
    | some p => Except.ok p
    | none => Except.error (BinaryError.ValueIsNotAValidProtocol val)

/-- A `Str0255` of `binary_sv2`: a byte string of length at most 255 (the
bound is enforced at construction). -/
def Str0255 := { l : List Nat // l.length ≤ 255 }

instance : DecidableEq Str0255 := Subtype.instDecidableEq

/-- Embedding of `Str0255: TryFrom<&mut [u8]>`: succeed exactly when the byte
slice fits the 255-byte bound. -/
def str0255_try_from (l : List Nat) : Except BinaryError Str0255 :=
  if h : l.length ≤ 255 then Except.ok ⟨l, h⟩
  else Except.error (BinaryError.Str0255TooLong l.length)

/-- The `SetupConnection` message (`setup_connection.rs`). -/
structure SetupConnection where
  protocol : Protocol
  min_version : Nat
  max_version : Nat
  flags : Nat
  endpoint_host : Str0255
  endpoint_port : Nat
  vendor : Str0255
  hardware_version : Str0255
  firmware : Str0255
  device_id : Str0255
deriving DecidableEq

/-- Embedding of `SetupConnection::set_requires_standard_job`:
`self.flags |= 0b...0001`. -/
def SetupConnection.set_requires_standard_job (s : SetupConnection) : SetupConnection :=
  { s with flags := s.flags ||| 1 }

/-- Embedding of `SetupConnection::set_async_job_nogotiation`:
`self.flags |= 0b...0001`. -/
def SetupConnection.set_async_job_nogotiation (s : SetupConnection) : SetupConnection :=
  { s with flags := s.flags ||| 1 }

/-- Embedding of `SetupConnection::check_flags`. -/
def SetupConnection.check_flags (protocol : Protocol) (available_flags required_flags : Nat) : Bool :=
  match protocol with
  | Protocol.MiningProtocol =>
    let available := reverse_bits available_flags
    let required_flags := reverse_bits required_flags
    let requires_work_selection_passed := decide (required_flags >>> 30 > 0)
    let requires_version_rolling_passed := decide (required_flags >>> 29 > 0)
    let requires_work_selection_self := decide (available >>> 30 > 0)
    let requires_version_rolling_self := decide (available >>> 29 > 0)
    let work_selection := !requires_work_selection_self || requires_work_selection_passed
    let version_rolling := !requires_version_rolling_self || requires_version_rolling_passed
    work_selection && version_rolling
  | Protocol.JobDeclarationProtocol =>
    let available := reverse_bits available_flags
    let required := reverse_bits required_flags
    let requires_async_job_mining_passed := decide ((required >>> 31) &&& 1 > 0)
    let requires_async_job_mining_self := decide ((available >>> 31) &&& 1 > 0)
    match requires_async_job_mining_self, requires_async_job_mining_passed with
    | true, true => true
    | true, false => true
    | false, true => false
    | false, false => true
  | Protocol.TemplateDistributionProtocol => false

/-- Embedding of `SetupConnection::get_version`. -/
def SetupConnection.get_version (s : SetupConnection) (min_version max_version : Nat) : Option Nat :=
  if s.min_version > max_version ∨ min_version > s.max_version then none
  else some (min s.max_version max_version)

/-- Embedding of `has_requires_std_job`: reverse the bits and inspect the top
bit. -/
def has_requires_std_job (flags : Nat) : Bool :=
  let flags := reverse_bits flags
  let flag := flags >>> 31
  flag != 0

/-- Embedding of `has_version_rolling`: reverse the bits, shift left by 1
(truncating to 32 bits as the `u32` shift does) and inspect the top bit. -/
def has_version_rolling (flags : Nat) : Bool :=
  let flags := reverse_bits flags
  let flags := (flags <<< 1) % 2 ^ 32
  let flag := flags >>> 31
  flag != 0

/-- Embedding of `has_work_selection`: reverse the bits, shift left by 2
(truncating to 32 bits) and inspect the top bit. -/
def has_work_selection (flags : Nat) : Bool :=
  let flags := reverse_bits flags
  let flags := (flags <<< 2) % 2 ^ 32
  let flag := flags >>> 31
  flag != 0

/-- Embedding of `SetupConnection::requires_standard_job`. -/
def SetupConnection.requires_standard_job (s : SetupConnection) : Bool :=
  has_requires_std_job s.flags

/-- A `binary_sv2` `CVec`: a heap-owned byte block.  `bytes` is the content,
`block` the identity of the owned heap allocation (`none` once freed or when
the field was never populated). -/
structure CVec where
  bytes : List Nat
  block : Option Nat
deriving DecidableEq, Repr

/-- Embedding of `CVec::as_mut_slice`: view of the byte content. -/
def CVec.as_mut_slice (v : CVec) : List Nat := v.bytes

/-- The owned heap blocks of a `CVec` (one or none). -/
def CVec.owned (v : CVec) : List Nat := v.block.toList

/-- Modelled from the spec: `free_vec` lives in the `binary_sv2` crate, which is
not under `src/`.  Per section 4.3 of the spec, release frees the owned block
and releasing twice must be a no-op/safe; the heap is modelled explicitly as
the list of live block ids, and a freed `CVec` no longer references its
block. -/
def free_vec (h : List Nat) (v : CVec) : List Nat × CVec :=
  match v.block with
  | none => (h, v)
  | some b => (h.filter (fun x => x != b), { v with block := none })

/-- A `binary_sv2` `CVec2`: a heap-owned spine block holding a list of `CVec`
elements. -/
structure CVec2 where
  elems : List CVec
  block : Option Nat
deriving DecidableEq, Repr

/-- The owned heap blocks of a `CVec2`: its spine block plus every element's
block. -/
def CVec2.owned (v : CVec2) : List Nat :=
  v.block.toList ++ v.elems.filterMap CVec.block

/-- Free every `CVec` of a list in order, threading the heap. -/
def free_vec_list (h : List Nat) : List CVec → List Nat × List CVec
  | [] => (h, [])
  | c :: rest =>
    let r := free_vec h c
    let rr := free_vec_list r.1 rest
    (rr.1, r.2 :: rr.2)

/-- Modelled from the spec: `free_vec_2` lives in the `binary_sv2` crate, which
is not under `src/`.  Per section 4.3, releasing a `CVec2` frees every element
block and the spine block, and releasing twice is safe. -/
def free_vec_2 (h : List Nat) (v : CVec2) : List Nat × CVec2 :=
  let r := free_vec_list h v.elems
  match v.block with
  | none => (r.1, { elems := r.2, block := none })
  | some b => (r.1.filter (fun x => x != b), { elems := r.2, block := none })

/-- The C representation `CSetupConnection` (`setup_connection.rs`). -/
structure CSetupConnection where
  protocol : Protocol
  min_version : Nat
  max_version : Nat
  flags : Nat
  endpoint_host : CVec
  endpoint_port : Nat
  vendor : CVec
  hardware_version : CVec
  firmware : CVec
  device_id : CVec
deriving DecidableEq

/-- Conversion of a `Str0255` into an owning `CVec` (the `.into()` calls of
`From<SetupConnection> for CSetupConnection`); `b` is the identity of the
freshly allocated block. -/
def Str0255.into_cvec (s : Str0255) (b : Nat) : CVec := ⟨s.val, some b⟩

/-- Embedding of `From<SetupConnection> for CSetupConnection`: copy the scalar
fields and move each bounded string into a freshly allocated owned block
(block identities 0..4 stand for the five fresh allocations). -/
def CSetupConnection.from_rust (v : SetupConnection) : CSetupConnection :=
  { protocol := v.protocol
    min_version := v.min_version
    max_version := v.max_version
    flags := v.flags
    endpoint_host := v.endpoint_host.into_cvec 0
    endpoint_port := v.endpoint_port
    vendor := v.vendor.into_cvec 1
    hardware_version := v.hardware_version.into_cvec 2
    firmware := v.firmware.into_cvec 3
    device_id := v.device_id.into_cvec 4 }

/-- Embedding of `CSetupConnection::to_rust_rep_mut`: convert each owned byte
block back into a bounded string (failing on a length violation, in source
order) and rebuild the `SetupConnection`. -/
def CSetupConnection.to_rust_rep_mut (c : CSetupConnection) : Except BinaryError SetupConnection := do
  let endpoint_host ← str0255_try_from c.endpoint_host.as_mut_slice
  let vendor ← str0255_try_from c.vendor.as_mut_slice
  let hardware_version ← str0255_try_from c.hardware_version.as_mut_slice
  let firmware ← str0255_try_from c.firmware.as_mut_slice
  let device_id ← str0255_try_from c.device_id.as_mut_slice
  return { protocol := c.protocol
           min_version := c.min_version
           max_version := c.max_version
           flags := c.flags
           endpoint_host := endpoint_host
           endpoint_port := c.endpoint_port
           vendor := vendor
           hardware_version := hardware_version
           firmware := firmware
           device_id := device_id }

/-- The owned heap blocks of a `CSetupConnection`: the blocks of its five
`CVec` fields. -/
def CSetupConnection.ownedBlocks (c : CSetupConnection) : List Nat :=
  c.endpoint_host.owned ++ c.vendor.owned ++ c.hardware_version.owned ++
    c.firmware.owned ++ c.device_id.owned

/-- Embedding of `Drop for CSetupConnection`: `free_vec` each of the five owned
byte blocks, in source order. -/
def CSetupConnection.drop (h : List Nat) (c : CSetupConnection) : List Nat × CSetupConnection :=
  let s1 := free_vec h c.endpoint_host
  let s2 := free_vec s1.1 c.vendor
  let s3 := free_vec s2.1 c.hardware_version
  let s4 := free_vec s3.1 c.firmware
  let s5 := free_vec s4.1 c.device_id
  (s5.1, { c with endpoint_host := s1.2, vendor := s2.2, hardware_version := s3.2,
                  firmware := s4.2, device_id := s5.2 })

/-- Embedding of `free_setup_connection`: drop the value. -/
def free_setup_connection (h : List Nat) (c : CSetupConnection) : List Nat × CSetupConnection :=
  CSetupConnection.drop h c

/-- The C representation `CRequestTransactionDataSuccess`
(`request_transaction_data.rs`). -/
structure CRequestTransactionDataSuccess where
  template_id : Nat
  excess_data : CVec
  transaction_list : CVec2
deriving DecidableEq

/-- The owned heap blocks of a `CRequestTransactionDataSuccess`: the excess-data
block plus every block of the transaction list. -/
def CRequestTransactionDataSuccess.ownedBlocks (t : CRequestTransactionDataSuccess) : List Nat :=
  t.excess_data.owned ++ t.transaction_list.owned

/-- Embedding of `Drop for CRequestTransactionDataSuccess`: `free_vec` the
excess data, then `free_vec_2` the transaction list. -/
def CRequestTransactionDataSuccess.drop (h : List Nat) (t : CRequestTransactionDataSuccess) :
    List Nat × CRequestTransactionDataSuccess :=
  let s1 := free_vec h t.excess_data
  let s2 := free_vec_2 s1.1 t.transaction_list
  (s2.1, { t with excess_data := s1.2, transaction_list := s2.2 })

/-- Embedding of `free_request_tx_data_success`: drop the value. -/
def free_request_tx_data_success (h : List Nat) (t : CRequestTransactionDataSuccess) :
    List Nat × CRequestTransactionDataSuccess :=
  CRequestTransactionDataSuccess.drop h t

/-- The empty bounded string. -/
def emptyStr : Str0255 := ⟨[], by decide⟩

/-- A concrete `SetupConnection` with the given version range (mirrors the
`create_setup_connection` test fixture shape, with empty identifier strings). -/
def mkSetupConn (mn mx : Nat) : SetupConnection :=
  { protocol := Protocol.MiningProtocol
    min_version := mn
    max_version := mx
    flags := 0
    endpoint_host := emptyStr
    endpoint_port := 0
    vendor := emptyStr
    hardware_version := emptyStr
    firmware := emptyStr
    device_id := emptyStr }

/-- A concrete `CSetupConnection` carrying `min_version = 5 > 1 = max_version`
and empty byte blocks. -/
def cBadVersions : CSetupConnection :=
  { protocol := Protocol.MiningProtocol
    min_version := 5
    max_version := 1
    flags := 0
    endpoint_host := ⟨[], none⟩
    endpoint_port := 0
    vendor := ⟨[], none⟩
    hardware_version := ⟨[], none⟩
    firmware := ⟨[], none⟩
    device_id := ⟨[], none⟩ }

/-- The `SetupConnection` produced by decoding `cBadVersions`. -/
def sBadVersions : SetupConnection :=
  { protocol := Protocol.MiningProtocol
    min_version := 5
    max_version := 1
    flags := 0
    endpoint_host := emptyStr
    endpoint_port := 0
    vendor := emptyStr
    hardware_version := emptyStr
    firmware := emptyStr
    device_id := emptyStr }

/-- A concrete heap of live block ids. -/
def cFullHeap : List Nat := [0, 1, 2, 3, 4, 7]

/-- A concrete fully populated `CSetupConnection` owning blocks 0..4. -/
def cEx : CSetupConnection :=
  { protocol := Protocol.MiningProtocol
    min_version := 2
    max_version := 2
    flags := 0
    endpoint_host := ⟨[104], some 0⟩
    endpoint_port := 80
    vendor := ⟨[118], some 1⟩
    hardware_version := ⟨[104], some 2⟩
    firmware := ⟨[102], some 3⟩
    device_id := ⟨[100], some 4⟩ }

/-- A concrete `CRequestTransactionDataSuccess` owning blocks 5, 6 and 7. -/
def tEx : CRequestTransactionDataSuccess :=
  { template_id := 9
    excess_data := ⟨[1], some 5⟩
    transaction_list := { elems := [⟨[2], some 6⟩], block := some 7 } }

/-! ## Bit-reversal lemmas -/

theorem revBits_succ (k m : Nat) : revBits (k + 1) m = m % 2 * 2 ^ k + revBits k (m / 2) := rfl

theorem revBits_lt (k m : Nat) : revBits k m < 2 ^ k := by
  induction k generalizing m with
  | zero => simp [revBits]
  | succ k ih =>
    have h1 : m % 2 ≤ 1 := by omega
    have h2 : revBits k (m / 2) < 2 ^ k := ih (m / 2)
    have h3 : m % 2 * 2 ^ k ≤ 2 ^ k := by
      calc m % 2 * 2 ^ k ≤ 1 * 2 ^ k := Nat.mul_le_mul_right _ h1
      _ = 2 ^ k := Nat.one_mul _
    have h4 : revBits (k + 1) m = m % 2 * 2 ^ k + revBits k (m / 2) := revBits_succ k m
    have h5 : (2 : Nat) ^ (k + 1) = 2 ^ k + 2 ^ k := by rw [Nat.pow_succ]; omega
    omega

theorem rev_decomp1 (n : Nat) :
    reverse_bits n = n % 2 * 2 ^ 31 + revBits 31 (n / 2) := revBits_succ 31 n

theorem rev_decomp2 (n : Nat) :
    reverse_bits n = n % 2 * 2 ^ 31 + (n / 2 % 2 * 2 ^ 30 + revBits 30 (n / 4)) := by
  have h1 := rev_decomp1 n
  have h2 : revBits 31 (n / 2) = n / 2 % 2 * 2 ^ 30 + revBits 30 (n / 2 / 2) := revBits_succ 30 (n / 2)
  have h3 : n / 2 / 2 = n / 4 := by omega
  rw [h1, h2, h3]

theorem rev_decomp3 (n : Nat) :
    reverse_bits n = n % 2 * 2 ^ 31 +
      (n / 2 % 2 * 2 ^ 30 + (n / 4 % 2 * 2 ^ 29 + revBits 29 (n / 8))) := by
  have h1 := rev_decomp2 n
  have h2 : revBits 30 (n / 4) = n / 4 % 2 * 2 ^ 29 + revBits 29 (n / 4 / 2) := revBits_succ 29 (n / 4)
  have h3 : n / 4 / 2 = n / 8 := by omega
  rw [h1, h2, h3]

theorem reverse_shr31 (n : Nat) : reverse_bits n >>> 31 = n % 2 := by
  have hd := rev_decomp1 n
  have hl : revBits 31 (n / 2) < 2 ^ 31 := revBits_lt 31 (n / 2)
  rw [hd, Nat.shiftRight_eq_div_pow]
  norm_num at hl ⊢
  omega

theorem reverse_shr30 (n : Nat) : reverse_bits n >>> 30 = n % 2 * 2 + n / 2 % 2 := by
  have hd := rev_decomp2 n
  have hl : revBits 30 (n / 4) < 2 ^ 30 := revBits_lt 30 (n / 4)
  rw [hd, Nat.shiftRight_eq_div_pow]
  norm_num at hl ⊢
  omega

theorem reverse_shr29 (n : Nat) :
    reverse_bits n >>> 29 = n % 2 * 4 + n / 2 % 2 * 2 + n / 4 % 2 := by
  have hd := rev_decomp3 n
  have hl : revBits 29 (n / 8) < 2 ^ 29 := revBits_lt 29 (n / 8)
  rw [hd, Nat.shiftRight_eq_div_pow]
  norm_num at hl ⊢
  omega

theorem reverse_shl1_shr31 (n : Nat) :
    ((reverse_bits n <<< 1) % 2 ^ 32) >>> 31 = n / 2 % 2 := by
  have hd := rev_decomp2 n
  have hl : revBits 30 (n / 4) < 2 ^ 30 := revBits_lt 30 (n / 4)
  have e30 : (2 : Nat) ^ 30 = 1073741824 := by norm_num
  have e31 : (2 : Nat) ^ 31 = 2147483648 := by norm_num
  have e32 : (2 : Nat) ^ 32 = 4294967296 := by norm_num
  rw [hd, Nat.shiftLeft_eq, Nat.shiftRight_eq_div_pow, e30, e31, e32]
  rw [e30] at hl
  have e1 : (2 : Nat) ^ 1 = 2 := by norm_num
  rw [e1]
  omega

theorem reverse_shl2_shr31 (n : Nat) :
    ((reverse_bits n <<< 2) % 2 ^ 32) >>> 31 = n / 4 % 2 := by
  have hd := rev_decomp3 n
  have hl : revBits 29 (n / 8) < 2 ^ 29 := revBits_lt 29 (n / 8)
  have e29 : (2 : Nat) ^ 29 = 536870912 := by norm_num
  have e30 : (2 : Nat) ^ 30 = 1073741824 := by norm_num
  have e31 : (2 : Nat) ^ 31 = 2147483648 := by norm_num
  have e32 : (2 : Nat) ^ 32 = 4294967296 := by norm_num
  rw [hd, Nat.shiftLeft_eq, Nat.shiftRight_eq_div_pow, e29, e30, e31, e32]
  rw [e29] at hl
  have e2 : (2 : Nat) ^ 2 = 4 := by norm_num
  rw [e2]
  omega

/-! ## Characterizations of the flag helper predicates -/

theorem mod_two_land_one (n : Nat) : n % 2 &&& 1 = n % 2 := by
  rcases Nat.mod_two_eq_zero_or_one n with h | h <;> rw [h] <;> rfl

theorem lor_one_eq (n : Nat) : n ||| 1 = 2 * (n / 2) + 1 := by
  apply Nat.eq_of_testBit_eq
  intro i
  cases i with
  | zero =>
    rw [Nat.testBit_lor]
    simp [Nat.testBit_zero]
    omega
  | succ j =>
    rw [Nat.testBit_lor]
    simp [Nat.testBit_succ]
    have h2 : (2 * (n / 2) + 1) / 2 = n / 2 := by omega
    rw [h2]

theorem has_requires_std_job_iff (f : Nat) : has_requires_std_job f = true ↔ f % 2 = 1 := by
  simp only [has_requires_std_job, reverse_shr31, bne_iff_ne, ne_eq]
  omega

theorem has_version_rolling_iff (f : Nat) : has_version_rolling f = true ↔ f / 2 % 2 = 1 := by
  simp only [has_version_rolling, reverse_shl1_shr31, bne_iff_ne, ne_eq]
  omega

theorem has_work_selection_iff (f : Nat) : has_work_selection f = true ↔ f / 4 % 2 = 1 := by
  simp only [has_work_selection, reverse_shl2_shr31, bne_iff_ne, ne_eq]
  omega

set_option maxRecDepth 4096 in
theorem check_flags_mining_eq (a r : Nat) :
    SetupConnection.check_flags Protocol.MiningProtocol a r
      = ((decide (a % 4 = 0) || decide (r % 4 ≠ 0)) && (decide (a % 8 = 0) || decide (r % 8 ≠ 0))) := by
  simp only [SetupConnection.check_flags, reverse_shr30, reverse_shr29]
  rw [Bool.eq_iff_iff]
  simp only [Bool.and_eq_true, Bool.or_eq_true, Bool.not_eq_true', decide_eq_true_eq,
    decide_eq_false_iff_not]
  have ha4 : a % 4 = a % 2 + 2 * (a / 2 % 2) := by omega
  have hr4 : r % 4 = r % 2 + 2 * (r / 2 % 2) := by omega
  have ha8 : a % 8 = a % 2 + 2 * (a / 2 % 2) + 4 * (a / 4 % 2) := by omega
  have hr8 : r % 8 = r % 2 + 2 * (r / 2 % 2) + 4 * (r / 4 % 2) := by omega
  omega

set_option maxRecDepth 4096 in
theorem check_flags_jd_eq (a r : Nat) :
    SetupConnection.check_flags Protocol.JobDeclarationProtocol a r
      = (decide (a % 2 = 1) || decide (r % 2 = 0)) := by
  simp only [SetupConnection.check_flags, reverse_shr31, mod_two_land_one]
  rcases Nat.mod_two_eq_zero_or_one a with h | h <;>
    rcases Nat.mod_two_eq_zero_or_one r with h2 | h2 <;>
      rw [h, h2] <;> rfl

/-! ## Claim theorems -/

/-- C1: `get_version` against a peer-offered range `[s.min_version, s.max_version]`
and a local range `[mn, mx]` returns `some (min s.max_version mx)` exactly when
`s.min_version ≤ mx` and `mn ≤ s.max_version`, and `none` otherwise; in
particular offered `(1,4)` against local `(1,5)` gives version 4, local `(6,6)`
gives none, and offered `(5,5)` against local `(1,4)` gives none. -/
theorem get_version_spec :
    (∀ (s : SetupConnection) (mn mx : Nat),
      (SetupConnection.get_version s mn mx = some (min s.max_version mx) ↔
        s.min_version ≤ mx ∧ mn ≤ s.max_version)
      ∧ (SetupConnection.get_version s mn mx = none ↔
        ¬(s.min_version ≤ mx ∧ mn ≤ s.max_version)))
    ∧ SetupConnection.get_version (mkSetupConn 1 4) 1 5 = some 4
    ∧ SetupConnection.get_version (mkSetupConn 1 4) 6 6 = none
    ∧ SetupConnection.get_version (mkSetupConn 5 5) 1 4 = none := by
  refine ⟨fun s mn mx => ?_, by decide, by decide, by decide⟩
  unfold SetupConnection.get_version
  by_cases h : s.min_version > mx ∨ mn > s.max_version
  · rw [if_pos h]
    constructor
    · exact ⟨fun he => Option.noConfusion he, fun hc => absurd h (by omega)⟩
    · exact ⟨fun _ => by omega, fun _ => rfl⟩
  · rw [if_neg h]
    constructor
    · exact ⟨fun _ => by omega, fun _ => rfl⟩
    · exact ⟨fun he => Option.noConfusion he,
        fun hc => absurd (show s.min_version ≤ mx ∧ mn ≤ s.max_version by omega) hc⟩

/-- C2 counterexample: with `available_flags = 4` (only bit-index 2, work
selection, set) and `required_flags = 2` (only bit-index 1, version rolling,
set), the claimed per-bit rule — for each of bit-index 1 and bit-index 2,
the bit is clear in `available` or set in `required` — is violated at
bit-index 2, yet `check_flags` returns `true`. -/
theorem check_flags_mining_counterexample :
    SetupConnection.check_flags Protocol.MiningProtocol 4 2 = true
    ∧ ¬ (SetupConnection.check_flags Protocol.MiningProtocol 4 2 = true ↔
        ((4 / 2 % 2 = 0 ∨ 2 / 2 % 2 = 1) ∧ (4 / 4 % 2 = 0 ∨ 2 / 4 % 2 = 1))) := by
  constructor
  · rfl
  · intro hiff
    have h1 : SetupConnection.check_flags Protocol.MiningProtocol 4 2 = true := rfl
    have h2 := hiff.mp h1
    omega

/-- C2 (amended): the mining-protocol flag check compares bit ranges, not single
bits: it returns `true` iff (available has no bit among indices 0..1 set, or
required has some bit among indices 0..1 set) and (available has no bit among
indices 0..2 set, or required has some bit among indices 0..2 set) — i.e. iff
`(a % 4 = 0 ∨ r % 4 ≠ 0) ∧ (a % 8 = 0 ∨ r % 8 ≠ 0)`. -/
theorem check_flags_mining_ranges (a r : Nat) :
    SetupConnection.check_flags Protocol.MiningProtocol a r = true ↔
      ((a % 4 = 0 ∨ r % 4 ≠ 0) ∧ (a % 8 = 0 ∨ r % 8 ≠ 0)) := by
  rw [check_flags_mining_eq]
  simp only [Bool.and_eq_true, Bool.or_eq_true, decide_eq_true_eq]

/-- C3: the job-declaration flag check depends only on bit-index 0 of each word
and is `true` iff the local side requires async job negotiation or the peer
does not: the truth table over (local requires, peer requires) is true, true,
false, true, with `false` exactly at (local does not require, peer requires). -/
theorem check_flags_job_declaration_spec (a r : Nat) :
    (SetupConnection.check_flags Protocol.JobDeclarationProtocol a r = true ↔
      (a % 2 = 1 ∨ r % 2 = 0))
    ∧ (∀ a2 r2 : Nat, a % 2 = a2 % 2 → r % 2 = r2 % 2 →
        SetupConnection.check_flags Protocol.JobDeclarationProtocol a r
          = SetupConnection.check_flags Protocol.JobDeclarationProtocol a2 r2) := by
  constructor
  · rw [check_flags_jd_eq]
    simp only [Bool.or_eq_true, decide_eq_true_eq]
  · intro a2 r2 h1 h2
    rw [check_flags_jd_eq, check_flags_jd_eq, h1, h2]

/-- C3 witness: instantiating the dependence statement at `(1,3)` and `(3,1)`. -/
theorem check_flags_job_declaration_witness :
    SetupConnection.check_flags Protocol.JobDeclarationProtocol 1 3
      = SetupConnection.check_flags Protocol.JobDeclarationProtocol 3 1 :=
  (check_flags_job_declaration_spec 1 3).2 3 1 (by decide) (by decide)

/-- C4: the template-distribution flag check is unconditionally `false`. -/
theorem check_flags_template_distribution_false (available_flags required_flags : Nat) :
    SetupConnection.check_flags Protocol.TemplateDistributionProtocol
      available_flags required_flags = false := rfl

/-- C5: the single-bit helper predicates test exactly bit-index 0, 1 and 2
respectively (the least-significant, second and third bits of the flag word),
and depend on no other bit: each is fully characterized by that one bit. -/
theorem helper_bit_predicates (f : Nat) :
    (has_requires_std_job f = true ↔ f % 2 = 1)
    ∧ (has_version_rolling f = true ↔ f / 2 % 2 = 1)
    ∧ (has_work_selection f = true ↔ f / 4 % 2 = 1) :=
  ⟨has_requires_std_job_iff f, has_version_rolling_iff f, has_work_selection_iff f⟩

/-- C6: decoding a protocol discriminant succeeds exactly on the three
externally defined codes, and `from_decoded_fields` turns the failure into the
typed error `ValueIsNotAValidProtocol`. -/
theorem protocol_discriminant_decode (b : Nat) :
    ((Protocol.try_from b).isSome = true ↔
      (b = SV2_MINING_PROTOCOL_DISCRIMINANT ∨ b = SV2_JOB_DECLARATION_PROTOCOL_DISCRIMINANT ∨
        b = SV2_TEMPLATE_DISTR_PROTOCOL_DISCRIMINANT))
    ∧ Protocol.from_decoded_fields [b] =
        (match Protocol.try_from b with
         | some p => Except.ok p
         | none => Except.error (BinaryError.ValueIsNotAValidProtocol b)) := by
  constructor
  · unfold Protocol.try_from
    split_ifs with h1 h2 h3 <;> simp_all
  · rfl

/-- C7 counterexample: the claimed invariant `min_version ≤ max_version` is not
enforced by the code: `to_rust_rep_mut` accepts a foreign representation with
`min_version = 5 > 1 = max_version` and produces a `SetupConnection` record
violating the invariant. -/
theorem setup_connection_version_invariant_counterexample :
    CSetupConnection.to_rust_rep_mut cBadVersions = Except.ok sBadVersions
    ∧ ¬ (sBadVersions.min_version ≤ sBadVersions.max_version) := by
  constructor
  · rfl
  · decide

/-- C7 (amended): the mutating operations defined on `SetupConnection` (the two
flag setters) leave `min_version` and `max_version` unchanged and hence
preserve `min_version ≤ max_version` whenever it holds; the invariant is not,
however, established at construction (see the counterexample). -/
theorem setup_connection_mutators_preserve_version_invariant (s : SetupConnection)
    (h : s.min_version ≤ s.max_version) :
    (SetupConnection.set_requires_standard_job s).min_version ≤
        (SetupConnection.set_requires_standard_job s).max_version
    ∧ (SetupConnection.set_async_job_nogotiation s).min_version ≤
        (SetupConnection.set_async_job_nogotiation s).max_version :=
  ⟨h, h⟩

/-- C7 witness: the preservation theorem applied at a concrete record. -/
theorem setup_connection_mutators_preserve_version_invariant_witness :
    (SetupConnection.set_requires_standard_job (mkSetupConn 1 4)).min_version ≤
        (SetupConnection.set_requires_standard_job (mkSetupConn 1 4)).max_version
    ∧ (SetupConnection.set_async_job_nogotiation (mkSetupConn 1 4)).min_version ≤
        (SetupConnection.set_async_job_nogotiation (mkSetupConn 1 4)).max_version :=
  setup_connection_mutators_preserve_version_invariant (mkSetupConn 1 4) (by decide)

theorem str0255_try_from_val (s : Str0255) : str0255_try_from s.val = Except.ok s := by
  unfold str0255_try_from
  rw [dif_pos s.property, Subtype.coe_eta]

/-- C8: converting a `SetupConnection` into its owning foreign form and back
with `to_rust_rep_mut` reproduces the original message in every field. -/
theorem c_setup_connection_roundtrip (m : SetupConnection) :
    CSetupConnection.to_rust_rep_mut (CSetupConnection.from_rust m) = Except.ok m := by
  unfold CSetupConnection.to_rust_rep_mut CSetupConnection.from_rust
  simp only [CVec.as_mut_slice, Str0255.into_cvec, str0255_try_from_val]
  rfl

/-- C10: the two flag mutators perform the identical mutation: each sets
exactly the least-significant bit of `flags` (leaving the other bits and every
other field unchanged), and afterwards `requires_standard_job` holds. -/
theorem set_flag_mutators_spec (s : SetupConnection) :
    SetupConnection.set_requires_standard_job s = SetupConnection.set_async_job_nogotiation s
    ∧ (SetupConnection.set_requires_standard_job s).flags = 2 * (s.flags / 2) + 1
    ∧ (SetupConnection.set_requires_standard_job s).protocol = s.protocol
    ∧ (SetupConnection.set_requires_standard_job s).min_version = s.min_version
    ∧ (SetupConnection.set_requires_standard_job s).max_version = s.max_version
    ∧ (SetupConnection.set_requires_standard_job s).endpoint_host = s.endpoint_host
    ∧ (SetupConnection.set_requires_standard_job s).endpoint_port = s.endpoint_port
    ∧ (SetupConnection.set_requires_standard_job s).vendor = s.vendor
    ∧ (SetupConnection.set_requires_standard_job s).hardware_version = s.hardware_version
    ∧ (SetupConnection.set_requires_standard_job s).firmware = s.firmware
    ∧ (SetupConnection.set_requires_standard_job s).device_id = s.device_id
    ∧ SetupConnection.requires_standard_job (SetupConnection.set_requires_standard_job s) = true := by
  refine ⟨rfl, lor_one_eq s.flags, rfl, rfl, rfl, rfl, rfl, rfl, rfl, rfl, rfl, ?_⟩
  apply (has_requires_std_job_iff (s.flags ||| 1)).mpr
  rw [lor_one_eq]
  omega

/-! ## Release discipline of the foreign representations -/

theorem free_vec_mem (h : List Nat) (v : CVec) (b : Nat) :
    b ∈ (free_vec h v).1 ↔ b ∈ h ∧ v.block ≠ some b := by
  cases hv : v.block with
  | none => simp [free_vec, hv]
  | some x =>
    simp only [free_vec, hv, List.mem_filter, bne_iff_ne, ne_eq, Option.some.injEq]
    constructor
    · exact fun hb => ⟨hb.1, fun he => hb.2 he.symm⟩
    · exact fun hb => ⟨hb.1, fun he => hb.2 he.symm⟩

theorem free_vec_block (h : List Nat) (v : CVec) : ((free_vec h v).2).block = none := by
  cases hv : v.block <;> simp [free_vec, hv]

theorem free_vec_none (h : List Nat) (v : CVec) (hb : v.block = none) :
    free_vec h v = (h, v) := by
  simp [free_vec, hb]

theorem free_vec_list_mem (l : List CVec) (h : List Nat) (b : Nat) :
    b ∈ (free_vec_list h l).1 ↔ b ∈ h ∧ ∀ c ∈ l, c.block ≠ some b := by
  induction l generalizing h with
  | nil => simp [free_vec_list]
  | cons c rest ih =>
    simp only [free_vec_list, ih, free_vec_mem, List.mem_cons]
    constructor
    · rintro ⟨⟨hh, hc⟩, hrest⟩
      refine ⟨hh, fun d hd => ?_⟩
      rcases hd with hd | hd
      · exact hd ▸ hc
      · exact hrest d hd
    · rintro ⟨hh, hall⟩
      exact ⟨⟨hh, hall c (Or.inl rfl)⟩, fun d hd => hall d (Or.inr hd)⟩

theorem free_vec_list_blocks (l : List CVec) (h : List Nat) :
    ∀ c ∈ (free_vec_list h l).2, c.block = none := by
  induction l generalizing h with
  | nil => simp [free_vec_list]
  | cons c rest ih =>
    simp only [free_vec_list, List.mem_cons]
    rintro d (hd | hd)
    · exact hd ▸ free_vec_block h c
    · exact ih _ d hd

theorem free_vec_list_none (l : List CVec) (h : List Nat)
    (hb : ∀ c ∈ l, c.block = none) : free_vec_list h l = (h, l) := by
  induction l generalizing h with
  | nil => simp [free_vec_list]
  | cons c rest ih =>
    have h1 : c.block = none := hb c (List.mem_cons_self c rest)
    have h2 : ∀ d ∈ rest, d.block = none := fun d hd => hb d (List.mem_cons_of_mem c hd)
    simp [free_vec_list, free_vec_none h c h1, ih h h2]

theorem free_vec_2_mem (h : List Nat) (v : CVec2) (b : Nat) :
    b ∈ (free_vec_2 h v).1 ↔
      b ∈ h ∧ (∀ c ∈ v.elems, c.block ≠ some b) ∧ v.block ≠ some b := by
  cases hv : v.block with
  | none =>
    simp only [free_vec_2, hv, free_vec_list_mem, ne_eq]
    constructor
    · exact fun hb => ⟨hb.1, hb.2, by simp⟩
    · exact fun hb => ⟨hb.1, hb.2.1⟩
  | some x =>
    simp only [free_vec_2, hv, List.mem_filter, free_vec_list_mem, bne_iff_ne, ne_eq,
      Option.some.injEq]
    constructor
    · rintro ⟨⟨hh, hall⟩, hne⟩
      exact ⟨hh, hall, fun he => hne he.symm⟩
    · rintro ⟨hh, hall, hne⟩
      exact ⟨⟨hh, hall⟩, fun he => hne he.symm⟩

theorem free_vec_2_spine (h : List Nat) (v : CVec2) : ((free_vec_2 h v).2).block = none := by
  cases hv : v.block <;> simp [free_vec_2, hv]

theorem free_vec_2_elems (h : List Nat) (v : CVec2) :
    ∀ c ∈ ((free_vec_2 h v).2).elems, c.block = none := by
  cases hv : v.block <;> simp only [free_vec_2, hv] <;>
    exact free_vec_list_blocks v.elems h

theorem free_vec_2_none (h : List Nat) (v : CVec2) (hb : v.block = none)
    (he : ∀ c ∈ v.elems, c.block = none) : free_vec_2 h v = (h, v) := by
  simp only [free_vec_2, hb, free_vec_list_none v.elems h he, Prod.mk.injEq, true_and]
  rw [← hb]

theorem csetup_drop_mem (h : List Nat) (c : CSetupConnection) (b : Nat) :
    b ∈ (CSetupConnection.drop h c).1 ↔ b ∈ h ∧ b ∉ CSetupConnection.ownedBlocks c := by
  simp only [CSetupConnection.drop, CSetupConnection.ownedBlocks, CVec.owned, free_vec_mem,
    List.mem_append, Option.mem_toList, Option.mem_def, ne_eq]
  tauto

theorem csetup_drop_none (h : List Nat) (c : CSetupConnection)
    (h1 : c.endpoint_host.block = none) (h2 : c.vendor.block = none)
    (h3 : c.hardware_version.block = none) (h4 : c.firmware.block = none)
    (h5 : c.device_id.block = none) :
    CSetupConnection.drop h c = (h, c) := by
  simp only [CSetupConnection.drop, free_vec_none _ _ h1, free_vec_none _ _ h2,
    free_vec_none _ _ h3, free_vec_none _ _ h4, free_vec_none _ _ h5]

theorem csetup_drop_idem (h : List Nat) (c : CSetupConnection) :
    CSetupConnection.drop (CSetupConnection.drop h c).1 (CSetupConnection.drop h c).2
      = CSetupConnection.drop h c := by
  exact csetup_drop_none _ _ (free_vec_block h c.endpoint_host)
    (free_vec_block _ c.vendor) (free_vec_block _ c.hardware_version)
    (free_vec_block _ c.firmware) (free_vec_block _ c.device_id)

theorem tx_drop_mem (h : List Nat) (t : CRequestTransactionDataSuccess) (b : Nat) :
    b ∈ (CRequestTransactionDataSuccess.drop h t).1 ↔
      b ∈ h ∧ b ∉ CRequestTransactionDataSuccess.ownedBlocks t := by
  simp only [CRequestTransactionDataSuccess.drop, CRequestTransactionDataSuccess.ownedBlocks,
    CVec.owned, CVec2.owned, free_vec_2_mem, free_vec_mem, List.mem_append, Option.mem_toList,
    Option.mem_def, List.mem_filterMap, ne_eq]
  constructor
  · rintro ⟨⟨hh, hx⟩, hall, hs⟩
    refine ⟨hh, ?_⟩
    rintro (hb | hb | ⟨d, hd, hdb⟩)
    · exact hx hb
    · exact hs hb
    · exact hall d hd hdb
  · rintro ⟨hh, hb⟩
    push_neg at hb
    exact ⟨⟨hh, hb.1⟩, fun d hd hdb => hb.2.2 d hd hdb, hb.2.1⟩

theorem tx_drop_idem (h : List Nat) (t : CRequestTransactionDataSuccess) :
    CRequestTransactionDataSuccess.drop (CRequestTransactionDataSuccess.drop h t).1
        (CRequestTransactionDataSuccess.drop h t).2
      = CRequestTransactionDataSuccess.drop h t := by
  simp only [CRequestTransactionDataSuccess.drop]
  rw [free_vec_none _ _ (free_vec_block h t.excess_data),
    free_vec_2_none _ _ (free_vec_2_spine _ t.transaction_list)
      (free_vec_2_elems _ t.transaction_list)]

/-- C9: releasing a foreign-form instance (`free_setup_connection` /
`free_request_tx_data_success`, i.e. `Drop`) frees exactly every owned byte
block it holds — including a partially populated instance, whose unpopulated
fields are skipped — and releasing a second time is a no-op (no double free):
the first release leaves the instance without block references, so the second
changes nothing. -/
theorem foreign_release_discipline (h : List Nat) (c : CSetupConnection)
    (t : CRequestTransactionDataSuccess) :
    (∀ b, b ∈ CSetupConnection.ownedBlocks c → b ∉ (free_setup_connection h c).1)
    ∧ (∀ b, b ∈ h → b ∉ CSetupConnection.ownedBlocks c → b ∈ (free_setup_connection h c).1)
    ∧ free_setup_connection (free_setup_connection h c).1 (free_setup_connection h c).2
        = free_setup_connection h c
    ∧ (∀ b, b ∈ CRequestTransactionDataSuccess.ownedBlocks t →
        b ∉ (free_request_tx_data_success h t).1)
    ∧ (∀ b, b ∈ h → b ∉ CRequestTransactionDataSuccess.ownedBlocks t →
        b ∈ (free_request_tx_data_success h t).1)
    ∧ free_request_tx_data_success (free_request_tx_data_success h t).1
          (free_request_tx_data_success h t).2
        = free_request_tx_data_success h t := by
  refine ⟨?_, ?_, csetup_drop_idem h c, ?_, ?_, tx_drop_idem h t⟩
  · intro b hb hmem
    exact ((csetup_drop_mem h c b).mp hmem).2 hb
  · intro b hb hnb
    exact (csetup_drop_mem h c b).mpr ⟨hb, hnb⟩
  · intro b hb hmem
    exact ((tx_drop_mem h t b).mp hmem).2 hb
  · intro b hb hnb
    exact (tx_drop_mem h t b).mpr ⟨hb, hnb⟩

/-- C9 witness: releasing the fully populated fixtures removes their owned
blocks (0 for the connection, 5 for the transaction data) from the live heap,
while 7, owned by no field of `cEx`, survives its release. -/
theorem foreign_release_discipline_witness :
    0 ∉ (free_setup_connection cFullHeap cEx).1
    ∧ 7 ∈ (free_setup_connection cFullHeap cEx).1
    ∧ 5 ∉ (free_request_tx_data_success [5, 6, 7] tEx).1 :=
  ⟨(foreign_release_discipline cFullHeap cEx tEx).1 0 (by decide),
   (foreign_release_discipline cFullHeap cEx tEx).2.1 7 (by decide) (by decide),
   (foreign_release_discipline [5, 6, 7] cEx tEx).2.2.2.1 5 (by decide)⟩
